import Mathlib

/- Verification of the Fraction / extended-GCD core of the algebra repository.

   The Python source is shallowly embedded over the integers:
   Python integers become Int, Python floor division and floor modulus
   become Int.fdiv and Int.fmod (both follow the sign of the divisor,
   exactly as Python does), raised exceptions become Except.error with a
   PyErr value naming the exception class, and the while loops of the GCD
   engine become well-founded recursion on the natural absolute value of
   the divisor, which strictly decreases because the floor modulus is
   smaller than the divisor in absolute value.

   Sources embedded here:
   - src/algebra/nt/egcd.py: egcd (the iterative extended Euclidean loop);
   - src/algebra/nt/diaphontine.py: solve_linear;
   - src/algebra/fraction.py and src/src/algebra/fraction.py: the variadic
     gcd (the two files differ on zero arguments), Fraction with simplify,
     as_ratio, equality, addition and hashing (the two files differ in the
     hash body). -/

/-- Exceptions raised by the embedded Python code: ValueError with its
message, ZeroDivisionError, and AttributeError with the missing attribute
name. -/
inductive PyErr where
  | valueError (msg : String)
  | zeroDivisionError
  | attributeError (attr : String)
deriving DecidableEq

instance exceptDecEq {e a : Type} [DecidableEq e] [DecidableEq a] :
    DecidableEq (Except e a) := fun x y =>
  match x, y with
  | .ok u, .ok v =>
    if h : u = v then isTrue (congrArg Except.ok h)
    else isFalse (fun h2 => h (Except.ok.inj h2))
  | .error u, .error v =>
    if h : u = v then isTrue (congrArg Except.error h)
    else isFalse (fun h2 => h (Except.error.inj h2))
  | .ok _, .error _ => isFalse (fun h2 => Except.noConfusion h2)
  | .error _, .ok _ => isFalse (fun h2 => Except.noConfusion h2)

/-- The two-argument Euclidean loop shared by every gcd entry point of
fraction.py (both copies, lines 11 to 15): while b: a, b = b, a % b, then
return a. Python % on ints is the floor modulus, Int.fmod. -/
def gcdLoop (a b : Int) : Int :=
  if b = 0 then a else gcdLoop b (a.fmod b)
termination_by b.natAbs
decreasing_by
  rename_i h
  cases a with
  | ofNat m =>
    cases b with
    | ofNat n =>
      have hn : n ≠ 0 := by simpa using h
      have he : Int.fmod (Int.ofNat m) (Int.ofNat n) = Int.ofNat (m % n) := by
        cases m <;> rfl
      rw [he]
      simpa using Nat.mod_lt _ (Nat.pos_of_ne_zero hn)
    | negSucc n =>
      cases m with
      | zero =>
        have he : Int.fmod (Int.ofNat 0) (Int.negSucc n) = 0 := rfl
        rw [he]
        simp
      | succ m =>
        have he : Int.fmod (Int.ofNat (Nat.succ m)) (Int.negSucc n) =
            Int.subNatNat (m % Nat.succ n) n := rfl
        rw [he, Int.subNatNat_eq_coe, Int.natAbs_negSucc]
        have h1 : m % Nat.succ n < Nat.succ n := Nat.mod_lt _ (Nat.succ_pos n)
        omega
  | negSucc m =>
    cases b with
    | ofNat n =>
      have hn : n ≠ 0 := by simpa using h
      have he : Int.fmod (Int.negSucc m) (Int.ofNat n) =
          Int.subNatNat n (Nat.succ (m % n)) := rfl
      have h2 : (Int.ofNat n).natAbs = n := Int.natAbs_ofNat n
      rw [he, Int.subNatNat_eq_coe, h2]
      have h1 : m % n < n := Nat.mod_lt _ (Nat.pos_of_ne_zero hn)
      omega
    | negSucc n =>
      have he : Int.fmod (Int.negSucc m) (Int.negSucc n) =
          -Int.ofNat (Nat.succ m % Nat.succ n) := rfl
      have h2 : (Int.ofNat (Nat.succ m % Nat.succ n)).natAbs =
          Nat.succ m % Nat.succ n := Int.natAbs_ofNat _
      rw [he, Int.natAbs_neg, h2, Int.natAbs_negSucc]
      exact Nat.mod_lt _ (Nat.succ_pos n)

/-- Variadic gcd of src/algebra/fraction.py lines 8 to 19: with no values it
raises ValueError, with two it runs the Euclidean loop, and otherwise it
left-folds the two-argument form over the list. -/
def gcd : List Int → Except PyErr Int
  | [] => Except.error (PyErr.valueError "No values to have denominators")
  | [a, b] => Except.ok (gcdLoop a b)
  | v :: rest => Except.ok (rest.foldl gcdLoop v)

/-- Variadic gcd of src/src/algebra/fraction.py lines 8 to 30: identical to
the src/algebra variant except that zero arguments return 0 (its doctest
reads: gcd() gives 0). -/
def gcdSrc : List Int → Int
  | [] => 0
  | [a, b] => gcdLoop a b
  | v :: rest => rest.foldl gcdLoop v

/-- The loop of egcd in src/algebra/nt/egcd.py lines 17 to 26: two triples
(u, u1, u2) and (v, v1, v2) are updated by q, r = divmod(u, v) and
(u, u1, u2), (v, v1, v2) = (v, v1, v2), (r, u1 - q*v1, u2 - q*v2) until
v reaches zero. Python divmod on ints is (Int.fdiv, Int.fmod). -/
def egcdLoop (u u1 u2 v v1 v2 : Int) : Int × Int × Int :=
  if v = 0 then (u, u1, u2)
  else egcdLoop v v1 v2 (u.fmod v) (u1 - u.fdiv v * v1) (u2 - u.fdiv v * v2)
termination_by v.natAbs
decreasing_by
  rename_i h
  cases u with
  | ofNat m =>
    cases v with
    | ofNat n =>
      have hn : n ≠ 0 := by simpa using h
      have he : Int.fmod (Int.ofNat m) (Int.ofNat n) = Int.ofNat (m % n) := by
        cases m <;> rfl
      rw [he]
      simpa using Nat.mod_lt _ (Nat.pos_of_ne_zero hn)
    | negSucc n =>
      cases m with
      | zero =>
        have he : Int.fmod (Int.ofNat 0) (Int.negSucc n) = 0 := rfl
        rw [he]
        simp
      | succ m =>
        have he : Int.fmod (Int.ofNat (Nat.succ m)) (Int.negSucc n) =
            Int.subNatNat (m % Nat.succ n) n := rfl
        rw [he, Int.subNatNat_eq_coe, Int.natAbs_negSucc]
        have h1 : m % Nat.succ n < Nat.succ n := Nat.mod_lt _ (Nat.succ_pos n)
        omega
  | negSucc m =>
    cases v with
    | ofNat n =>
      have hn : n ≠ 0 := by simpa using h
      have he : Int.fmod (Int.negSucc m) (Int.ofNat n) =
          Int.subNatNat n (Nat.succ (m % n)) := rfl
      have h2 : (Int.ofNat n).natAbs = n := Int.natAbs_ofNat n
      rw [he, Int.subNatNat_eq_coe, h2]
      have h1 : m % n < n := Nat.mod_lt _ (Nat.pos_of_ne_zero hn)
      omega
    | negSucc n =>
      have he : Int.fmod (Int.negSucc m) (Int.negSucc n) =
          -Int.ofNat (Nat.succ m % Nat.succ n) := rfl
      have h2 : (Int.ofNat (Nat.succ m % Nat.succ n)).natAbs =
          Nat.succ m % Nat.succ n := Int.natAbs_ofNat _
      rw [he, Int.natAbs_neg, h2, Int.natAbs_negSucc]
      exact Nat.mod_lt _ (Nat.succ_pos n)

/-- egcd of src/algebra/nt/egcd.py lines 6 to 29: the loop started from
u, u1, u2 = a, 1, 0 and v, v1, v2 = b, 0, 1. Returns the triple (d, x, y). -/
def egcd (a b : Int) : Int × Int × Int := egcdLoop a 1 0 b 0 1

/-- solve_linear of src/algebra/nt/diaphontine.py lines 7 to 13: d, x, y =
egcd(a, b); if c % d: return None; s = c // d; return (x*s, y*s). When the
gcd d is zero, the Python expression c % d raises ZeroDivisionError before
anything is returned, so that case is an error value here. -/
def solve_linear (a b c : Int) : Except PyErr (Option (Int × Int)) :=
  if (egcd a b).1 = 0 then Except.error PyErr.zeroDivisionError
  else if c.fmod (egcd a b).1 ≠ 0 then Except.ok none
  else Except.ok (some ((egcd a b).2.1 * c.fdiv (egcd a b).1,
                        (egcd a b).2.2 * c.fdiv (egcd a b).1))

/-- Fraction over the integers: the two fields of class Fraction in
fraction.py, with no constructor validation (a zero denominator is legal). -/
structure Fraction where
  numerator : Int
  denominator : Int
deriving DecidableEq

/-- as_ratio of fraction.py: the pair (numerator, denominator) unchanged. -/
def Fraction.as_ratio (f : Fraction) : Int × Int := (f.numerator, f.denominator)

/-- simplify of fraction.py lines 38 to 42: g = gcd(numerator, denominator)
by the two-argument Euclidean loop; if g is falsy (zero) the fraction is
returned unchanged, otherwise both fields are floor-divided by g. -/
def Fraction.simplify (f : Fraction) : Fraction :=
  if gcdLoop f.numerator f.denominator = 0 then f
  else ⟨f.numerator.fdiv (gcdLoop f.numerator f.denominator),
        f.denominator.fdiv (gcdLoop f.numerator f.denominator)⟩

/-- Fraction equality against another fraction, fraction.py lines 120 to 139:
unequal when exactly one denominator is zero, unequal when exactly one
numerator is zero, and otherwise cross-multiplication. Python truthiness
(not x) on an int is the test x == 0. -/
def Fraction.eq (self other : Fraction) : Bool :=
  if (self.denominator == 0) != (other.denominator == 0) then false
  else if (self.numerator == 0) != (other.numerator == 0) then false
  else self.numerator * other.denominator == other.numerator * self.denominator

/-- The tuple that the working hash of src/src/algebra/fraction.py line 211
feeds to the builtin hash: hash(self.simplify().as_ratio()). Equal tuples
give equal Python hashes, so tuple equality is what consistency needs. -/
def Fraction.hashKey (f : Fraction) : Int × Int := f.simplify.as_ratio

/-- The hash of src/algebra/fraction.py line 142 evaluates
self.simplify().as_integer_ratio(); Fraction defines no method named
as_integer_ratio, so the attribute lookup raises AttributeError for every
fraction before any tuple is produced. -/
def Fraction.hashAlg (_f : Fraction) : Except PyErr (Int × Int) :=
  Except.error (PyErr.attributeError "as_integer_ratio")

/-- The right operand of Fraction addition: either a fraction-like value
(anything with numerator and denominator attributes, which is what
is_fraction in fraction.py tests) or a bare ring element without them. -/
inductive Operand where
  | frac (f : Fraction)
  | bare (k : Int)

/-- Fraction addition, fraction.py lines 59 to 69. The fraction branch is
the cross-multiplication formula. The bare-element branch of the source
reads self.numeratror, an attribute Fraction never defines (the field is
spelled numerator), so it raises AttributeError; the except clause catches
only ValueError, so the AttributeError escapes to the caller. -/
def Fraction.add (self : Fraction) (other : Operand) : Except PyErr Fraction :=
  match other with
  | .frac o => Except.ok ⟨self.numerator * o.denominator + o.numerator * self.denominator,
                          self.denominator * o.denominator⟩
  | .bare _ => Except.error (PyErr.attributeError "numeratror")

/-- Unfolding of the Euclidean loop at a zero divisor. -/
theorem gcdLoop_zero (a : Int) : gcdLoop a 0 = a := by
  rw [gcdLoop]; simp

/-- Unfolding of the Euclidean loop at a nonzero divisor. -/
theorem gcdLoop_of_ne (a b : Int) (h : b ≠ 0) : gcdLoop a b = gcdLoop b (a.fmod b) := by
  rw [gcdLoop]; simp [h]

/-- The Euclidean loop returns a common divisor of its two arguments. -/
theorem gcdLoop_dvd (a b : Int) : gcdLoop a b ∣ a ∧ gcdLoop a b ∣ b := by
  induction a, b using gcdLoop.induct with
  | case1 a => rw [gcdLoop_zero]; exact ⟨dvd_refl a, dvd_zero a⟩
  | case2 a b h ih =>
    rw [gcdLoop_of_ne a b h]
    obtain ⟨h1, h2⟩ := ih
    refine ⟨?_, h1⟩
    calc gcdLoop b (a.fmod b) ∣ b * a.fdiv b + a.fmod b :=
          dvd_add (Dvd.dvd.mul_right h1 _) h2
    _ = a := Int.fdiv_add_fmod a b

/-- Every common divisor of the arguments divides the Euclidean loop's
result. -/
theorem dvd_gcdLoop (k a b : Int) (ha : k ∣ a) (hb : k ∣ b) : k ∣ gcdLoop a b := by
  induction a, b using gcdLoop.induct with
  | case1 a => rw [gcdLoop_zero]; exact ha
  | case2 a b h ih =>
    rw [gcdLoop_of_ne a b h]
    refine ih hb ?_
    have hd : a.fmod b = a - b * a.fdiv b := Int.fmod_def a b
    rw [hd]
    exact dvd_sub ha (Dvd.dvd.mul_right hb _)

/-- In absolute value, the Euclidean loop computes the mathematical gcd. -/
theorem gcdLoop_natAbs (a b : Int) : (gcdLoop a b).natAbs = Int.gcd a b := by
  have h1 := (gcdLoop_dvd a b).1
  have h2 := (gcdLoop_dvd a b).2
  have h3 : (Int.gcd a b : Int) ∣ gcdLoop a b :=
    dvd_gcdLoop _ _ _ Int.gcd_dvd_left Int.gcd_dvd_right
  have h4 : gcdLoop a b ∣ (Int.gcd a b : Int) := Int.dvd_gcd h1 h2
  have h5 : (gcdLoop a b).natAbs ∣ Int.gcd a b := by
    rw [← Int.natAbs_ofNat (Int.gcd a b)]
    exact Int.natAbs_dvd_natAbs.mpr h4
  have h6 : Int.gcd a b ∣ (gcdLoop a b).natAbs := by
    rw [← Int.natAbs_ofNat (Int.gcd a b)]
    exact Int.natAbs_dvd_natAbs.mpr h3
  exact Nat.dvd_antisymm h5 h6

/-- On non-negative arguments the Euclidean loop stays non-negative: the
floor modulus by a positive divisor is non-negative. -/
theorem gcdLoop_nonneg (a b : Int) (ha : 0 ≤ a) (hb : 0 ≤ b) : 0 ≤ gcdLoop a b := by
  induction a, b using gcdLoop.induct with
  | case1 a => rw [gcdLoop_zero]; exact ha
  | case2 a b h ih =>
    rw [gcdLoop_of_ne a b h]
    exact ih hb (Int.fmod_nonneg' a (lt_of_le_of_ne hb (Ne.symm h)))

/-- On non-negative arguments the Euclidean loop equals the mathematical
gcd. -/
theorem gcdLoop_eq_gcd (a b : Int) (ha : 0 ≤ a) (hb : 0 ≤ b) :
    gcdLoop a b = Int.gcd a b := by
  have hn := gcdLoop_nonneg a b ha hb
  rw [← Int.natAbs_of_nonneg hn, gcdLoop_natAbs]

/-- The Euclidean loop returns zero exactly on the pair of zeros. -/
theorem gcdLoop_eq_zero_iff (a b : Int) : gcdLoop a b = 0 ↔ a = 0 ∧ b = 0 := by
  constructor
  · intro h
    have hn := gcdLoop_natAbs a b
    rw [h] at hn
    exact Int.gcd_eq_zero_iff.mp hn.symm
  · rintro ⟨rfl, rfl⟩
    rw [gcdLoop_zero]

/-- Unfolding of the extended loop at a zero v. -/
theorem egcdLoop_zero (u u1 u2 v1 v2 : Int) : egcdLoop u u1 u2 0 v1 v2 = (u, u1, u2) := by
  rw [egcdLoop]; simp

/-- Unfolding of the extended loop at a nonzero v. -/
theorem egcdLoop_of_ne (u u1 u2 v v1 v2 : Int) (h : v ≠ 0) :
    egcdLoop u u1 u2 v v1 v2 =
      egcdLoop v v1 v2 (u.fmod v) (u1 - u.fdiv v * v1) (u2 - u.fdiv v * v2) := by
  rw [egcdLoop]; simp [h]

/-- The loop invariant of egcd: if both triples satisfy the linear relation
a*x1 + b*x2 = x, the returned triple satisfies it, and the returned first
component is the result of the plain Euclidean loop on (u, v). -/
theorem egcdLoop_spec (a b : Int) : ∀ u u1 u2 v v1 v2 : Int,
    a * u1 + b * u2 = u → a * v1 + b * v2 = v →
    (a * (egcdLoop u u1 u2 v v1 v2).2.1 + b * (egcdLoop u u1 u2 v v1 v2).2.2
      = (egcdLoop u u1 u2 v v1 v2).1) ∧
    (egcdLoop u u1 u2 v v1 v2).1 = gcdLoop u v := by
  intro u u1 u2 v v1 v2 hu hv
  induction u, u1, u2, v, v1, v2 using egcdLoop.induct with
  | case1 u u1 u2 v1 v2 =>
    rw [egcdLoop_zero, gcdLoop_zero]
    exact ⟨hu, rfl⟩
  | case2 u u1 u2 v v1 v2 h ih =>
    rw [egcdLoop_of_ne u u1 u2 v v1 v2 h, gcdLoop_of_ne u v h]
    refine ih hv ?_
    have hd : u.fmod v = u - v * u.fdiv v := Int.fmod_def u v
    rw [hd, ← hu, ← hv]
    ring

/-- Bezout property of egcd: a*x + b*y = d for the returned triple. -/
theorem egcd_bezout (a b : Int) :
    a * (egcd a b).2.1 + b * (egcd a b).2.2 = (egcd a b).1 :=
  (egcdLoop_spec a b a 1 0 b 0 1 (by ring) (by ring)).1

/-- The d returned by egcd is the result of the plain Euclidean loop, the
gcd used everywhere else in the library. -/
theorem egcd_fst (a b : Int) : (egcd a b).1 = gcdLoop a b :=
  (egcdLoop_spec a b a 1 0 b 0 1 (by ring) (by ring)).2

/-- Any pair solve_linear returns solves the equation. -/
theorem solve_linear_sound (a b c x y : Int)
    (h : solve_linear a b c = Except.ok (some (x, y))) : a * x + b * y = c := by
  unfold solve_linear at h
  by_cases h0 : (egcd a b).1 = 0
  · rw [if_pos h0] at h
    exact absurd h (by simp)
  · rw [if_neg h0] at h
    by_cases hm : c.fmod (egcd a b).1 ≠ 0
    · rw [if_pos hm] at h
      simp at h
    · rw [if_neg hm] at h
      push_neg at hm
      simp only [Except.ok.injEq, Option.some.injEq, Prod.mk.injEq] at h
      obtain ⟨hx, hy⟩ := h
      have hb := egcd_bezout a b
      have hc : (egcd a b).1 * c.fdiv (egcd a b).1 = c := by
        have hf := Int.fdiv_add_fmod c (egcd a b).1
        rw [hm] at hf
        linarith
      rw [← hx, ← hy]
      have hr : a * ((egcd a b).2.1 * c.fdiv (egcd a b).1)
            + b * ((egcd a b).2.2 * c.fdiv (egcd a b).1)
          = (a * (egcd a b).2.1 + b * (egcd a b).2.2) * c.fdiv (egcd a b).1 := by ring
      rw [hr, hb, hc]

/-- When the gcd is nonzero and does not divide c, solve_linear returns
none. -/
theorem solve_linear_none (a b c : Int) (hab : ¬(a = 0 ∧ b = 0))
    (hnd : ¬ gcdLoop a b ∣ c) : solve_linear a b c = Except.ok none := by
  unfold solve_linear
  have h0 : (egcd a b).1 ≠ 0 := by
    rw [egcd_fst]
    intro h
    exact hab (gcdLoop_eq_zero_iff a b |>.mp h)
  rw [if_neg h0]
  have hm : c.fmod (egcd a b).1 ≠ 0 := by
    intro h
    apply hnd
    rw [← egcd_fst a b]
    have hf := Int.fdiv_add_fmod c (egcd a b).1
    rw [h, add_zero] at hf
    exact ⟨c.fdiv (egcd a b).1, hf.symm⟩
  rw [if_pos hm]

/-- With a = b = 0 the gcd is zero and the Python expression c % d raises
ZeroDivisionError for every c. -/
theorem solve_linear_zero_zero (c : Int) :
    solve_linear 0 0 c = Except.error PyErr.zeroDivisionError := by
  unfold solve_linear egcd
  rw [egcdLoop_zero]
  rfl

/-- Propositional reading of the three-case equality of fraction.py. -/
theorem fractionEq_iff (f g : Fraction) : Fraction.eq f g = true ↔
    ((f.denominator = 0 ↔ g.denominator = 0) ∧ (f.numerator = 0 ↔ g.numerator = 0) ∧
      f.numerator * g.denominator = g.numerator * f.denominator) := by
  unfold Fraction.eq
  by_cases hd1 : f.denominator = 0 <;> by_cases hd2 : g.denominator = 0 <;>
    by_cases hn1 : f.numerator = 0 <;> by_cases hn2 : g.numerator = 0 <;>
    simp [hd1, hd2, hn1, hn2]

/-- Fraction equality is reflexive. -/
theorem fracEq_refl (f : Fraction) : Fraction.eq f f = true := by
  rw [fractionEq_iff]
  exact ⟨Iff.rfl, Iff.rfl, rfl⟩

/-- simplify returns a fraction equal to its input: either the gcd is zero
and the fraction is unchanged, or both fields are exactly divided by the
same nonzero common divisor, which preserves zero statuses and the
cross-multiplication identity. -/
theorem simplify_eq_self (f : Fraction) : Fraction.eq f.simplify f = true := by
  obtain ⟨n, d⟩ := f
  unfold Fraction.simplify
  by_cases hg : gcdLoop n d = 0
  · rw [if_pos hg]
    exact fracEq_refl _
  · rw [if_neg hg]
    obtain ⟨n1, hn1⟩ := (gcdLoop_dvd n d).1
    obtain ⟨d1, hd1⟩ := (gcdLoop_dvd n d).2
    set g := gcdLoop n d with hgdef
    rw [fractionEq_iff]
    refine ⟨?_, ?_, ?_⟩
    · simp only [hd1, Int.mul_fdiv_cancel_left _ hg]
      simp [mul_eq_zero, hg]
    · simp only [hn1, Int.mul_fdiv_cancel_left _ hg]
      simp [mul_eq_zero, hg]
    · simp only [hn1, hd1, Int.mul_fdiv_cancel_left _ hg]
      ring

/-- Concrete run of the Euclidean loop on (2, 4). -/
theorem gcdLoop_2_4 : gcdLoop 2 4 = 2 := by
  rw [gcdLoop_of_ne _ _ (by decide), (by decide : Int.fmod 2 4 = 2),
      gcdLoop_of_ne _ _ (by decide), (by decide : Int.fmod 4 2 = 0), gcdLoop_zero]

/-- Concrete run of the Euclidean loop on (1, 2). -/
theorem gcdLoop_1_2 : gcdLoop 1 2 = 1 := by
  rw [gcdLoop_of_ne _ _ (by decide), (by decide : Int.fmod 1 2 = 1),
      gcdLoop_of_ne _ _ (by decide), (by decide : Int.fmod 2 1 = 0), gcdLoop_zero]

/-- Concrete run of the Euclidean loop on (4, -2): Python floor modulus
follows the divisor sign, so the result is -2. -/
theorem gcdLoop_4_neg2 : gcdLoop 4 (-2) = -2 := by
  rw [gcdLoop_of_ne _ _ (by decide), (by decide : Int.fmod 4 (-2) = 0), gcdLoop_zero]

/-- Concrete run of the Euclidean loop on (-2, 4): the result is 2. -/
theorem gcdLoop_neg2_4 : gcdLoop (-2) 4 = 2 := by
  rw [gcdLoop_of_ne _ _ (by decide), (by decide : Int.fmod (-2) 4 = 2),
      gcdLoop_of_ne _ _ (by decide), (by decide : Int.fmod 4 2 = 0), gcdLoop_zero]

/-- Concrete run of egcd on (3, 6). -/
theorem egcd_3_6 : egcd 3 6 = (3, 1, 0) := by
  unfold egcd
  rw [egcdLoop_of_ne _ _ _ _ _ _ (by decide),
      (by decide : Int.fmod 3 6 = 3), (by decide : Int.fdiv 3 6 = 0)]
  norm_num
  rw [egcdLoop_of_ne _ _ _ _ _ _ (by decide),
      (by decide : Int.fmod 6 3 = 0), (by decide : Int.fdiv 6 3 = 2)]
  rw [egcdLoop_zero]

/-- Concrete run of solve_linear on (3, 6, 18): the particular solution
(6, 0). -/
theorem solve_linear_3_6_18 : solve_linear 3 6 18 = Except.ok (some (6, 0)) := by
  unfold solve_linear
  rw [egcd_3_6]
  decide

/-- Concrete run of the simplified-ratio hash tuple of Fraction(2, 4). -/
theorem hashKey_2_4 : Fraction.hashKey ⟨2, 4⟩ = (1, 2) := by
  simp only [Fraction.hashKey, Fraction.simplify, Fraction.as_ratio]
  rw [gcdLoop_2_4]
  decide

/-- Concrete run of the simplified-ratio hash tuple of Fraction(1, 2). -/
theorem hashKey_1_2 : Fraction.hashKey ⟨1, 2⟩ = (1, 2) := by
  simp only [Fraction.hashKey, Fraction.simplify, Fraction.as_ratio]
  rw [gcdLoop_1_2]
  decide

/-- C1: for every pair of integers a, b, egcd(a, b) returns a triple
(d, x, y) with a*x + b*y = d and d equal to the result of the library's own
gcd (the Euclidean loop of fraction.py) on a and b. -/
theorem claim_C1_egcd_correct : ∀ a b : Int,
    a * (egcd a b).2.1 + b * (egcd a b).2.2 = (egcd a b).1 ∧ (egcd a b).1 = gcdLoop a b :=
  fun a b => ⟨egcd_bezout a b, egcd_fst a b⟩

/-- C2 counterexample: at a = 0, b = 0, c = 1 the value 1 is not a multiple
of gcd(0,0) = 0, yet solve_linear raises ZeroDivisionError instead of
returning the no-solution value None. -/
theorem claim_C2_counterexample :
    solve_linear 0 0 1 = Except.error PyErr.zeroDivisionError ∧
    solve_linear 0 0 1 ≠ Except.ok none ∧ ¬ gcdLoop 0 0 ∣ (1 : Int) := by
  refine ⟨solve_linear_zero_zero 1, ?_, ?_⟩
  · rw [solve_linear_zero_zero 1]
    decide
  · rw [gcdLoop_zero]
    decide

/-- C2 as amended: any returned pair solves a*x + b*y = c, and whenever
(a, b) is not (0, 0) and gcd(a, b) does not divide c, solve_linear returns
None. -/
theorem claim_C2_solve_linear : ∀ a b c x y : Int,
    (solve_linear a b c = Except.ok (some (x, y)) → a * x + b * y = c) ∧
    (¬(a = 0 ∧ b = 0) → ¬ gcdLoop a b ∣ c → solve_linear a b c = Except.ok none) :=
  fun a b c x y => ⟨solve_linear_sound a b c x y, solve_linear_none a b c⟩

/-- C3 counterexample: gcd(-4, 0) = -4, which is neither abs(-4) nor
non-negative, and gcd(4, -2) = -2 while gcd(-2, 4) = 2, so the binary gcd is
not commutative on negative inputs. -/
theorem claim_C3_counterexample :
    gcdLoop (-4) 0 = -4 ∧ gcdLoop (-4) 0 ≠ |(-4 : Int)| ∧ ¬ 0 ≤ gcdLoop (-4) 0 ∧
    gcdLoop 4 (-2) = -2 ∧ gcdLoop (-2) 4 = 2 ∧ gcdLoop 4 (-2) ≠ gcdLoop (-2) 4 := by
  refine ⟨gcdLoop_zero _, ?_, ?_, gcdLoop_4_neg2, gcdLoop_neg2_4, ?_⟩
  · rw [gcdLoop_zero]; decide
  · rw [gcdLoop_zero]; decide
  · rw [gcdLoop_4_neg2, gcdLoop_neg2_4]; decide

/-- C3 as amended: for all non-negative integers a, b the binary gcd is
commutative, gcd(a, 0) = abs(a), gcd(0, 0) = 0 and the result is
non-negative. -/
theorem claim_C3_gcd_props : ∀ a b : Int, 0 ≤ a → 0 ≤ b →
    gcdLoop a b = gcdLoop b a ∧ gcdLoop a 0 = |a| ∧ gcdLoop (0 : Int) 0 = 0 ∧
      0 ≤ gcdLoop a b := by
  intro a b ha hb
  refine ⟨?_, ?_, ?_, gcdLoop_nonneg a b ha hb⟩
  · rw [gcdLoop_eq_gcd a b ha hb, gcdLoop_eq_gcd b a hb ha, Int.gcd_comm]
  · rw [gcdLoop_zero, abs_of_nonneg ha]
  · rw [gcdLoop_zero]

/-- C3 witness: the amended properties at the concrete pair (6, 15). -/
theorem claim_C3_witness :
    gcdLoop 6 15 = gcdLoop 15 6 ∧ gcdLoop 6 0 = |(6 : Int)| ∧ gcdLoop (0 : Int) 0 = 0 ∧
      0 ≤ gcdLoop 6 15 :=
  claim_C3_gcd_props 6 15 (by decide) (by decide)

/-- C4: Fraction equality is exactly the three-case policy (matching zero
status of denominators, matching zero status of numerators, then
cross-multiplication), and on the concrete degenerate cases 0/0 equals 0/0,
1/0 equals 5/0, and 0/0 differs from 1/0. -/
theorem claim_C4_eq_policy : (∀ f g : Fraction, Fraction.eq f g = true ↔
      ((f.denominator = 0 ↔ g.denominator = 0) ∧ (f.numerator = 0 ↔ g.numerator = 0) ∧
        f.numerator * g.denominator = g.numerator * f.denominator)) ∧
    Fraction.eq ⟨0, 0⟩ ⟨0, 0⟩ = true ∧ Fraction.eq ⟨1, 0⟩ ⟨5, 0⟩ = true ∧
    Fraction.eq ⟨0, 0⟩ ⟨1, 0⟩ = false :=
  ⟨fractionEq_iff, by decide, by decide, by decide⟩

/-- C5: with a = 0 and b = 0 the code raises ZeroDivisionError for every c,
including c = 0, because egcd(0, 0) returns d = 0 and c % 0 is evaluated
before any result is produced. -/
theorem claim_C5_zero_zero : ∀ c : Int,
    solve_linear 0 0 c = Except.error PyErr.zeroDivisionError :=
  solve_linear_zero_zero

/-- C6: simplify is idempotent with respect to Fraction equality: for every
fraction f, f.simplify().simplify() equals f.simplify(). -/
theorem claim_C6_simplify_idempotent : ∀ f : Fraction,
    Fraction.eq f.simplify.simplify f.simplify = true :=
  fun f => simplify_eq_self f.simplify

/-- C7: the hash of src/algebra/fraction.py raises AttributeError on every
fraction (as_integer_ratio does not exist), already on Fraction(1, 0); the
simplified-ratio hash tuple of the working src/src variant agrees on
Fraction(2, 4) and Fraction(1, 2). -/
theorem claim_C7_hash : Fraction.hashAlg ⟨1, 0⟩ =
      Except.error (PyErr.attributeError "as_integer_ratio") ∧
    Fraction.hashKey ⟨2, 4⟩ = Fraction.hashKey ⟨1, 2⟩ := by
  refine ⟨rfl, ?_⟩
  rw [hashKey_2_4, hashKey_1_2]

/-- C8: adding a bare ring element to Fraction(1, 2) raises AttributeError
on the misspelled attribute numeratror instead of returning
Fraction(1 + 3*2, 2). -/
theorem claim_C8_add_bare :
    Fraction.add ⟨1, 2⟩ (Operand.bare 3) = Except.error (PyErr.attributeError "numeratror") ∧
    Fraction.add ⟨1, 2⟩ (Operand.bare 3) ≠ Except.ok ⟨1 + 3 * 2, 2⟩ :=
  ⟨rfl, by decide⟩

/-- C9 counterexample: the variadic gcd of src/src/algebra/fraction.py
returns 0 on zero arguments instead of failing. -/
theorem claim_C9_counterexample : gcdSrc [] = 0 := rfl

/-- C9 as amended: the variadic gcd of src/algebra/fraction.py raises
ValueError on zero arguments, while the src/src/algebra/fraction.py variant
returns 0 as its doctest documents. -/
theorem claim_C9_gcd_no_args :
    gcd [] = Except.error (PyErr.valueError "No values to have denominators") ∧
    gcdSrc [] = 0 :=
  ⟨rfl, rfl⟩

/-- C10: simplify preserves Fraction equality: for every fraction f,
including the degenerate zero-numerator and zero-denominator cases,
f.simplify() equals f. -/
theorem claim_C10_simplify_preserves_eq : ∀ f : Fraction,
    Fraction.eq f.simplify f = true :=
  simplify_eq_self
